import Mathlib

/-!
Verification of the store-viewer HTTP service (`src/lib.rs`).

The development shallowly embeds the request-routing and
content-negotiation core of the service:

* byte sequences are `List Nat` (each element a byte value `< 256`);
* decoded text is a `List Nat` of Unicode code points;
* the UTF-8 codec models Rust's `std::str::from_utf8` validation and
  `String::into_bytes`;
* the base64 codec models the `base64` crate's `STANDARD` engine;
* `is_text_content`, the API handlers and `handle_request` are direct
  translations of the Rust functions of the same names, with the external
  store facade, state deserializer and embedded static assets abstracted
  as parameters.
-/

/-- A UTF-8 continuation byte: `0x80 ≤ b ≤ 0xBF`. -/
def isCont (b : Nat) : Bool := 0x80 ≤ b && b ≤ 0xBF

/-- Decode one UTF-8 scalar value from the front of a byte list, returning the
code point and the remaining bytes.  The accepted byte patterns are exactly
those of Rust's `std::str::from_utf8`: overlong encodings (lead bytes
`0xC0`/`0xC1`, or a too-small continuation range after `0xE0`/`0xF0`),
surrogates (restricted range after `0xED`) and code points above `0x10FFFF`
(restricted range after `0xF4`, lead bytes `0xF5`-`0xFF`) are rejected. -/
def utf8DecodeChar : List Nat → Option (Nat × List Nat)
  | [] => none
  | b0 :: rest =>
    if b0 < 0x80 then some (b0, rest)
    else if b0 < 0xC2 then none
    else if b0 < 0xE0 then
      match rest with
      | b1 :: rest2 =>
        if isCont b1 then some ((b0 - 0xC0) * 64 + (b1 - 0x80), rest2) else none
      | _ => none
    else if b0 < 0xF0 then
      match rest with
      | b1 :: b2 :: rest3 =>
        if (if b0 = 0xE0 then 0xA0 else 0x80) ≤ b1 &&
           b1 ≤ (if b0 = 0xED then 0x9F else 0xBF) && isCont b2 then
          some ((b0 - 0xE0) * 4096 + (b1 - 0x80) * 64 + (b2 - 0x80), rest3)
        else none
      | _ => none
    else if b0 < 0xF5 then
      match rest with
      | b1 :: b2 :: b3 :: rest4 =>
        if (if b0 = 0xF0 then 0x90 else 0x80) ≤ b1 &&
           b1 ≤ (if b0 = 0xF4 then 0x8F else 0xBF) && isCont b2 && isCont b3 then
          some ((b0 - 0xF0) * 262144 + (b1 - 0x80) * 4096 +
                (b2 - 0x80) * 64 + (b3 - 0x80), rest4)
        else none
      | _ => none
    else none

/-- UTF-8 encoding of a single Unicode code point. -/
def utf8EncodeChar (c : Nat) : List Nat :=
  if c < 0x80 then [c]
  else if c < 0x800 then [0xC0 + c / 64, 0x80 + c % 64]
  else if c < 0x10000 then [0xE0 + c / 4096, 0x80 + (c / 64) % 64, 0x80 + c % 64]
  else [0xF0 + c / 262144, 0x80 + (c / 4096) % 64, 0x80 + (c / 64) % 64,
        0x80 + c % 64]

theorem utf8DecodeChar_length : ∀ bs c rest, utf8DecodeChar bs = some (c, rest) →
    rest.length < bs.length := by
  intro bs c rest h
  unfold utf8DecodeChar at h
  repeat' (first | split at h | split_ifs at h)
  all_goals first
    | exact Option.noConfusion h
    | (simp only [Option.some.injEq, Prod.mk.injEq] at h
       obtain ⟨h1, h2⟩ := h
       subst h2
       simp only [List.length_cons]
       omega)

theorem utf8DecodeChar_encode : ∀ bs c rest, utf8DecodeChar bs = some (c, rest) →
    utf8EncodeChar c ++ rest = bs := by
  intro bs c rest h
  unfold utf8DecodeChar at h
  repeat' (first | split at h | split_ifs at h)
  all_goals first
    | exact Option.noConfusion h
    | (simp only [Option.some.injEq, Prod.mk.injEq] at h
       obtain ⟨h1, h2⟩ := h
       subst h1
       subst h2
       try simp only [isCont, Bool.and_eq_true, decide_eq_true_eq] at *
       unfold utf8EncodeChar
       split_ifs <;>
         first
           | (exfalso; omega)
           | (simp only [List.cons_append, List.nil_append, List.cons.injEq,
                eq_self_iff_true, and_true, true_and]
              try omega))

/-- Iterate `utf8DecodeChar` over the whole byte list.  The fuel argument only
serves structural recursion; `utf8Decode` passes `bs.length`, which is enough
fuel because every step consumes at least one byte. -/
def utf8DecodeLoop : Nat → List Nat → Option (List Nat)
  | _, [] => some []
  | 0, _ :: _ => none
  | fuel + 1, b0 :: rest0 =>
    match utf8DecodeChar (b0 :: rest0) with
    | none => none
    | some (c, rest) => (utf8DecodeLoop fuel rest).map (c :: ·)

/-- UTF-8 validation and decoding of a whole byte list, modelling Rust's
`std::str::from_utf8` / `String::from_utf8`: `some cs` is the code-point list
of the decoded string, `none` is a decoding error. -/
def utf8Decode (bs : List Nat) : Option (List Nat) := utf8DecodeLoop bs.length bs

/-- UTF-8 encoding of a code-point list, modelling Rust's
`String::into_bytes` / `str::as_bytes` (also `str::len`, which is the length
of this byte list). -/
def utf8Encode (cs : List Nat) : List Nat := (cs.map utf8EncodeChar).flatten

theorem utf8Encode_cons (c : Nat) (cs : List Nat) :
    utf8Encode (c :: cs) = utf8EncodeChar c ++ utf8Encode cs := by
  simp [utf8Encode]

theorem utf8DecodeLoop_encode : ∀ fuel bs cs, bs.length ≤ fuel →
    utf8DecodeLoop fuel bs = some cs → utf8Encode cs = bs := by
  intro fuel
  induction fuel with
  | zero =>
    intro bs cs hlen h
    cases bs with
    | nil =>
      simp only [utf8DecodeLoop, Option.some.injEq] at h
      simp [← h, utf8Encode]
    | cons b0 rest0 => simp at hlen
  | succ fuel ih =>
    intro bs cs hlen h
    cases bs with
    | nil =>
      simp only [utf8DecodeLoop, Option.some.injEq] at h
      simp [← h, utf8Encode]
    | cons b0 rest0 =>
      rw [utf8DecodeLoop] at h
      cases hc : utf8DecodeChar (b0 :: rest0) with
      | none => rw [hc] at h; exact Option.noConfusion h
      | some p =>
        obtain ⟨c, rest⟩ := p
        rw [hc] at h
        simp only at h
        rcases Option.map_eq_some'.mp h with ⟨cs', hd, hcs⟩
        subst hcs
        have hlt := utf8DecodeChar_length _ _ _ hc
        rw [utf8Encode_cons, ih rest cs' (by simp only [List.length_cons] at hlt hlen; omega) hd,
            utf8DecodeChar_encode _ _ _ hc]

/-- Decoding a byte list as UTF-8 and re-encoding the code points recovers the
original bytes. -/
theorem utf8_decode_encode (bs cs : List Nat) (h : utf8Decode bs = some cs) :
    utf8Encode cs = bs :=
  utf8DecodeLoop_encode bs.length bs cs le_rfl h


/-- Character of the standard base64 alphabet for a 6-bit group. -/
def b64Char (n : Nat) : Nat :=
  if n < 26 then 65 + n
  else if n < 52 then 97 + (n - 26)
  else if n < 62 then 48 + (n - 52)
  else if n = 62 then 43
  else 47

/-- Inverse of the standard base64 alphabet. -/
def b64Inv (c : Nat) : Option Nat :=
  if 65 ≤ c && c ≤ 90 then some (c - 65)
  else if 97 ≤ c && c ≤ 122 then some (c - 97 + 26)
  else if 48 ≤ c && c ≤ 57 then some (c - 48 + 52)
  else if c = 43 then some 62
  else if c = 47 then some 63
  else none

theorem b64Inv_b64Char : ∀ n, n < 64 → b64Inv (b64Char n) = some n := by decide

theorem b64Char_ne_61 : ∀ n, n < 64 → b64Char n ≠ 61 := by decide

/-- Standard base64 encoding with `=` padding (code point 61), modelling the
`base64` crate's `STANDARD.encode` as used in `handle_get_label`.  Input is a
byte list, output the code-point list of the base64 string. -/
def base64Encode : List Nat → List Nat
  | [] => []
  | [b] => [b64Char (b / 4), b64Char (b % 4 * 16), 61, 61]
  | [b, c] => [b64Char (b / 4), b64Char (b % 4 * 16 + c / 16), b64Char (c % 16 * 4), 61]
  | b :: c :: d :: rest =>
    b64Char (b / 4) :: b64Char (b % 4 * 16 + c / 16) ::
    b64Char (c % 16 * 4 + d / 64) :: b64Char (d % 64) :: base64Encode rest

/-- Standard base64 decoding with `=` padding, the inverse direction used by
the spec's round-trip property.  Rejects non-alphabet characters, misplaced
padding and non-zero trailing bits. -/
def base64Decode : List Nat → Option (List Nat)
  | [] => some []
  | w :: x :: y :: z :: rest =>
    (b64Inv w).bind fun a =>
    (b64Inv x).bind fun b =>
    if y = 61 then
      if z = 61 && rest.isEmpty && b % 16 = 0 then some [a * 4 + b / 16] else none
    else
      (b64Inv y).bind fun c =>
      if z = 61 then
        if rest.isEmpty && c % 4 = 0 then
          some [a * 4 + b / 16, b % 16 * 16 + c / 4]
        else none
      else
        (b64Inv z).bind fun d =>
        (base64Decode rest).map
          (fun tail => (a * 4 + b / 16) :: (b % 16 * 16 + c / 4) :: (c % 4 * 64 + d) :: tail)
  | _ => none


/-- Decoding the base64 encoding of any byte list recovers the bytes. -/
theorem base64_roundtrip : ∀ bs, (∀ b ∈ bs, b < 256) →
    base64Decode (base64Encode bs) = some bs := by
  intro bs
  induction bs using base64Encode.induct with
  | case1 => intro _; rfl
  | case2 b =>
    intro hb
    have hb' : b < 256 := hb b (by simp)
    rw [base64Encode, base64Decode, b64Inv_b64Char (b / 4) (by omega),
        b64Inv_b64Char (b % 4 * 16) (by omega)]
    simp only [Option.some_bind]
    rw [if_pos trivial]
    split_ifs with h
    · simp only [Option.some.injEq, List.cons.injEq, and_true]
      omega
    · exfalso
      simp at h
      try omega
  | case3 b c =>
    intro hb
    have hb' : b < 256 := hb b (by simp)
    have hc' : c < 256 := hb c (by simp)
    rw [base64Encode, base64Decode, b64Inv_b64Char (b / 4) (by omega),
        b64Inv_b64Char (b % 4 * 16 + c / 16) (by omega)]
    simp only [Option.some_bind]
    rw [if_neg (b64Char_ne_61 (c % 16 * 4) (by omega)),
        b64Inv_b64Char (c % 16 * 4) (by omega)]
    simp only [Option.some_bind]
    rw [if_pos trivial]
    split_ifs with h
    · simp only [Option.some.injEq, List.cons.injEq, and_true]
      constructor <;> omega
    · exfalso
      simp at h
      try omega
  | case4 b c d rest ih =>
    intro hb
    have hb' : b < 256 := hb b (by simp)
    have hc' : c < 256 := hb c (by simp)
    have hd' : d < 256 := hb d (by simp)
    have hrest : ∀ x ∈ rest, x < 256 := fun x hx => hb x (by simp [hx])
    rw [base64Encode, base64Decode, b64Inv_b64Char (b / 4) (by omega),
        b64Inv_b64Char (b % 4 * 16 + c / 16) (by omega)]
    simp only [Option.some_bind]
    rw [if_neg (b64Char_ne_61 (c % 16 * 4 + d / 64) (by omega)),
        b64Inv_b64Char (c % 16 * 4 + d / 64) (by omega)]
    simp only [Option.some_bind]
    rw [if_neg (b64Char_ne_61 (d % 64) (by omega)),
        b64Inv_b64Char (d % 64) (by omega)]
    simp only [Option.some_bind]
    rw [ih hrest]
    simp only [Option.map_some, Option.map_some', Option.some.injEq,
      List.cons.injEq, and_true]
    refine ⟨by omega, by omega, by omega⟩

/-- Rust's `char::is_control`: true exactly for the Unicode `Cc` category,
`U+0000`-`U+001F` and `U+007F`-`U+009F`. -/
def isControlChar (c : Nat) : Bool := c < 0x20 || (0x7F ≤ c && c ≤ 0x9F)

/-- The count taken in `is_text_content` (src/lib.rs:58-61): characters that
are control characters and are not newline (10), carriage return (13) or
tab (9). -/
def countControl (cs : List Nat) : Nat :=
  (cs.filter fun c => isControlChar c && !(c == 10) && !(c == 13) && !(c == 9)).length

/-- Direct translation of `is_text_content` (src/lib.rs:49-68).  Empty content
is text; content that fails UTF-8 decoding is binary; otherwise the content is
text iff the non-exempt control-character count is strictly below
`s.len() / 10` — where Rust's `s.len()` is the BYTE length of the decoded
string, which equals `bytes.length`. -/
def is_text_content (bytes : List Nat) : Bool :=
  if bytes.isEmpty then true
  else
    match utf8Decode bytes with
    | some s => decide (countControl s < bytes.length / 10)
    | none => false

/-- Code points of a Lean string literal (used to embed Rust string
literals). -/
def strCps (s : String) : List Nat := s.data.map Char.toNat

/-- The string form of a label's content built in `handle_get_label`
(src/lib.rs:145-152): the decoded string itself when the content is classified
as text (with the `"[Encoding error]"` fallback of `String::from_utf8`'s error
branch), otherwise the base64 encoding of the bytes.  The result is a
code-point list. -/
def contentStr (bytes : List Nat) : List Nat :=
  if is_text_content bytes then
    match utf8Decode bytes with
    | some s => s
    | none => strCps "[Encoding error]"
  else base64Encode bytes

theorem utf8Decode_nil : utf8Decode [] = some [] := rfl

theorem is_text_content_eq (bytes cs : List Nat) (h1 : bytes ≠ [])
    (hdec : utf8Decode bytes = some cs) :
    is_text_content bytes = decide (countControl cs < bytes.length / 10) := by
  cases bytes with
  | nil => exact absurd rfl h1
  | cons b t =>
    rw [is_text_content]
    simp only [List.isEmpty_cons, if_false, Bool.false_eq_true]
    rw [hdec]

theorem contentStr_of_text (bytes cs : List Nat) (hdec : utf8Decode bytes = some cs)
    (ht : is_text_content bytes = true) : contentStr bytes = cs := by
  rw [contentStr, ht, if_pos rfl, hdec]

theorem contentStr_of_binary (bytes : List Nat)
    (ht : is_text_content bytes = false) : contentStr bytes = base64Encode bytes := by
  rw [contentStr, ht]
  simp

theorem is_text_content_of_none (bytes : List Nat) (hdec : utf8Decode bytes = none) :
    is_text_content bytes = false := by
  cases bytes with
  | nil => exact absurd hdec (by rw [utf8Decode_nil]; simp)
  | cons b t =>
    rw [is_text_content]
    simp only [List.isEmpty_cons, if_false, Bool.false_eq_true]
    rw [hdec]

/-- One control byte `0x01` followed by ten copies of the two-byte character
`é` (`U+00E9`): 21 bytes decoding to 11 characters. -/
def c1Bytes : List Nat :=
  [1, 195, 169, 195, 169, 195, 169, 195, 169, 195, 169,
   195, 169, 195, 169, 195, 169, 195, 169, 195, 169]

/-- Code points of `c1Bytes`. -/
def c1Cps : List Nat :=
  [1, 233, 233, 233, 233, 233, 233, 233, 233, 233, 233]

/-- C1 counterexample: `c1Bytes` is non-empty valid UTF-8 with 11 decoded
characters, one of them a non-exempt control character, so the
character-count threshold of the claim is `11 / 10 = 1` and the claim
requires `is_text = false`; but the code compares against the byte-length
threshold `21 / 10 = 2` and classifies it as text, rendering it verbatim. -/
theorem c1_counterexample :
    c1Bytes ≠ [] ∧ utf8Decode c1Bytes = some c1Cps ∧
    countControl c1Cps = 1 ∧ c1Cps.length = 11 ∧
    ¬(countControl c1Cps < c1Cps.length / 10) ∧
    is_text_content c1Bytes = true ∧ contentStr c1Bytes = c1Cps := by decide

/-- C1 (amended): for every non-empty valid-UTF-8 byte sequence, the
classifier returns `is_text = true` and renders the decoded string verbatim
iff the non-exempt control-character count is strictly less than
`floor(byte_length / 10)` (the BYTE length, not the character count);
otherwise it returns `is_text = false` and renders base64. -/
theorem c1_amended (bytes cs : List Nat) (h1 : bytes ≠ [])
    (hdec : utf8Decode bytes = some cs) :
    ((is_text_content bytes = true ∧ contentStr bytes = cs)
      ↔ countControl cs < bytes.length / 10)
    ∧ (¬ countControl cs < bytes.length / 10 →
        is_text_content bytes = false ∧ contentStr bytes = base64Encode bytes) := by
  have he := is_text_content_eq bytes cs h1 hdec
  constructor
  · constructor
    · rintro ⟨ht, -⟩
      rw [ht] at he
      exact of_decide_eq_true he.symm
    · intro hlt
      have ht : is_text_content bytes = true := by
        rw [he]
        exact decide_eq_true hlt
      exact ⟨ht, contentStr_of_text bytes cs hdec ht⟩
  · intro hge
    have ht : is_text_content bytes = false := by
      rw [he]
      exact decide_eq_false hge
    exact ⟨ht, contentStr_of_binary bytes ht⟩

/-- Witness for `c1_amended` at twenty `a` bytes. -/
def c1WBytes : List Nat := List.replicate 20 97

theorem c1_amended_witness :
    (c1WBytes ≠ [] ∧ utf8Decode c1WBytes = some c1WBytes) ∧
    (((is_text_content c1WBytes = true ∧ contentStr c1WBytes = c1WBytes)
        ↔ countControl c1WBytes < c1WBytes.length / 10)
      ∧ (¬ countControl c1WBytes < c1WBytes.length / 10 →
          is_text_content c1WBytes = false ∧
          contentStr c1WBytes = base64Encode c1WBytes)) :=
  ⟨⟨by decide, by decide⟩, c1_amended c1WBytes c1WBytes (by decide) (by decide)⟩

/-- C3: classifying and rendering any byte sequence and then re-deriving the
bytes (UTF-8 encoding of the rendered string when `is_text`, base64 decoding
otherwise) recovers exactly the original bytes; and every byte sequence that
is not valid UTF-8 is classified binary and rendered as standard base64. -/
theorem c3_roundtrip (bytes : List Nat) (hb : ∀ b ∈ bytes, b < 256) :
    (if is_text_content bytes then some (utf8Encode (contentStr bytes))
     else base64Decode (contentStr bytes)) = some bytes
    ∧ (utf8Decode bytes = none →
        is_text_content bytes = false ∧ contentStr bytes = base64Encode bytes) := by
  constructor
  · cases ht : is_text_content bytes with
    | true =>
      simp only [ht, if_true]
      cases hd : utf8Decode bytes with
      | none => exact absurd (is_text_content_of_none bytes hd ▸ ht) (by simp)
      | some s =>
        rw [contentStr_of_text bytes s hd ht, utf8_decode_encode bytes s hd]
    | false =>
      simp only [ht, Bool.false_eq_true, if_false]
      rw [contentStr_of_binary bytes ht]
      exact base64_roundtrip bytes hb
  · intro hnone
    have ht := is_text_content_of_none bytes hnone
    exact ⟨ht, contentStr_of_binary bytes ht⟩

theorem c3_roundtrip_witness :
    (∀ b ∈ ([255] : List Nat), b < 256) ∧
    ((if is_text_content [255] then some (utf8Encode (contentStr [255]))
      else base64Decode (contentStr [255])) = some [255]
     ∧ (utf8Decode [255] = none →
         is_text_content [255] = false ∧ contentStr [255] = base64Encode [255])) :=
  ⟨by decide, c3_roundtrip [255] (by decide)⟩

/-- One control byte `0x01` followed by eight copies of the three-byte
character `€` (`U+20AC`): 25 bytes decoding to 9 characters. -/
def c4Bytes : List Nat :=
  [1, 226, 130, 172, 226, 130, 172, 226, 130, 172, 226, 130, 172,
   226, 130, 172, 226, 130, 172, 226, 130, 172, 226, 130, 172]

/-- Code points of `c4Bytes`. -/
def c4Cps : List Nat :=
  [1, 8364, 8364, 8364, 8364, 8364, 8364, 8364, 8364]

/-- C4 counterexample: `c4Bytes` decodes to a string of 9 characters that
contains a non-exempt control character, yet the classifier marks it as text,
because the byte-length threshold `25 / 10 = 2` exceeds the control count. -/
theorem c4_counterexample :
    utf8Decode c4Bytes = some c4Cps ∧ c4Cps.length = 9 ∧
    1 ≤ countControl c4Cps ∧ is_text_content c4Bytes = true := by decide

/-- C4 (amended): every non-empty string whose UTF-8 encoding is at most
9 BYTES long and that contains at least one control character other than
newline, carriage return or tab is classified as binary. -/
theorem c4_amended (bytes cs : List Nat) (hdec : utf8Decode bytes = some cs)
    (h1 : bytes ≠ []) (h2 : bytes.length ≤ 9) (hc : 1 ≤ countControl cs) :
    is_text_content bytes = false := by
  rw [is_text_content_eq bytes cs h1 hdec]
  apply decide_eq_false
  omega

theorem c4_amended_witness :
    (utf8Decode [1, 104] = some [1, 104] ∧ ([1, 104] : List Nat) ≠ [] ∧
     ([1, 104] : List Nat).length ≤ 9 ∧ 1 ≤ countControl [1, 104]) ∧
    is_text_content [1, 104] = false :=
  ⟨⟨by decide, by decide, by decide, by decide⟩,
    c4_amended [1, 104] [1, 104] (by decide) (by decide) (by decide) (by decide)⟩

/-- C10: every non-empty byte sequence of at most 9 bytes is classified as
binary, even when it is valid UTF-8 containing no control characters at all:
the threshold `bytes.length / 10` floors to 0 and the strict comparison can
never hold. -/
theorem c10_short_is_binary (bytes : List Nat) (h1 : bytes ≠ [])
    (h2 : bytes.length ≤ 9) : is_text_content bytes = false := by
  cases hd : utf8Decode bytes with
  | none => exact is_text_content_of_none bytes hd
  | some s =>
    rw [is_text_content_eq bytes s h1 hd]
    apply decide_eq_false
    omega

theorem c10_short_is_binary_witness :
    (([104, 105] : List Nat) ≠ [] ∧ ([104, 105] : List Nat).length ≤ 9) ∧
    is_text_content [104, 105] = false :=
  ⟨⟨by decide, by decide⟩, c10_short_is_binary [104, 105] (by decide) (by decide)⟩

/-- UTF-8 bytes of a Lean string literal (Rust `str::as_bytes` /
`String::into_bytes` on a literal). -/
def strBytes (s : String) : List Nat := utf8Encode (strCps s)

/-- An inbound HTTP request as delivered by the `http_framework` bindings:
method, full URI and optional body bytes. -/
structure HttpRequest where
  method : String
  uri : String
  body : Option (List Nat)

/-- An HTTP response: status, headers and optional body bytes. -/
structure HttpResponse where
  status : Nat
  headers : List (String × String)
  body : Option (List Nat)
deriving DecidableEq

/-- Direct translation of `json_response` (src/lib.rs:70-76). -/
def json_response (status : Nat) (body : List Nat) : HttpResponse :=
  ⟨status, [("Content-Type", "application/json")], some body⟩

/-- Direct translation of `error_response` (src/lib.rs:78-81): the message is
spliced into the JSON template without escaping. -/
def error_response (status : Nat) (message : String) : HttpResponse :=
  json_response status (strBytes ("\x7b\"error\":\"" ++ message ++ "\"\x7d"))

/-- Lowercase hexadecimal digit. -/
def hexDigit (n : Nat) : Nat := if n < 10 then 48 + n else 87 + n

/-- Modelled from the spec: serde_json's escaping of one character inside a
JSON string (quote, backslash, the short control escapes, `\u00xy` for the
remaining control characters, everything else verbatim). -/
def jsonEscapeChar (c : Nat) : List Nat :=
  if c = 34 then [92, 34]
  else if c = 92 then [92, 92]
  else if c = 8 then [92, 98]
  else if c = 9 then [92, 116]
  else if c = 10 then [92, 110]
  else if c = 12 then [92, 102]
  else if c = 13 then [92, 114]
  else if c < 32 then [92, 117, 48, 48, hexDigit (c / 16), hexDigit (c % 16)]
  else [c]

/-- Modelled from the spec: serde_json's serialization of a string value
(code points in, code points out). -/
def jsonStringCps (cps : List Nat) : List Nat :=
  34 :: ((cps.map jsonEscapeChar).flatten ++ [34])

/-- Decimal digits of a number, as code points. -/
def natCps (n : Nat) : List Nat := strCps (toString n)

/-- Modelled from the spec: serde_json's serialization of
`LabelContentResponse` (src/lib.rs:37-43), fields in declaration order. -/
def serializeLabelContent (name : String) (content : List Nat) (is_text : Bool)
    (size_bytes : Nat) : List Nat :=
  utf8Encode
    (strCps "\x7b\"name\":" ++ jsonStringCps (strCps name) ++
     strCps ",\"content\":" ++ jsonStringCps content ++
     strCps ",\"is_text\":" ++ strCps (if is_text then "true" else "false") ++
     strCps ",\"size_bytes\":" ++ natCps size_bytes ++ strCps "\x7d")

/-- Modelled from the spec: serde_json's serialization of a list of label
names as a JSON array of strings. -/
def serializeLabels (labels : List (List Nat)) : List Nat :=
  utf8Encode (91 :: (List.intercalate [44] (labels.map jsonStringCps) ++ [93]))

/-- JSON whitespace. -/
def jsonWs (c : Nat) : Bool := c == 32 || c == 9 || c == 10 || c == 13

/-- Drop leading JSON whitespace. -/
def skipWs (l : List Nat) : List Nat := l.dropWhile jsonWs

/-- Value of a hexadecimal digit character. -/
def hexVal (c : Nat) : Option Nat :=
  if 48 ≤ c && c ≤ 57 then some (c - 48)
  else if 97 ≤ c && c ≤ 102 then some (c - 87)
  else if 65 ≤ c && c ≤ 70 then some (c - 55)
  else none

/-- Value of a single-character JSON string escape. -/
def escVal (e : Nat) : Option Nat :=
  if e = 34 then some 34
  else if e = 92 then some 92
  else if e = 47 then some 47
  else if e = 98 then some 8
  else if e = 102 then some 12
  else if e = 110 then some 10
  else if e = 114 then some 13
  else if e = 116 then some 9
  else none

/-- Modelled from the spec: the body of a JSON string after the opening
quote, returning the decoded code points and the input following the closing
quote.  Unescaped control characters are rejected; `\uXXXX` escapes are
accepted for non-surrogate code points (surrogate-pair recombination, which
no claim exercises, is not modelled and is rejected). -/
def parseStringRest : List Nat → Option (List Nat × List Nat)
  | [] => none
  | 34 :: rest => some ([], rest)
  | 92 :: 117 :: h1 :: h2 :: h3 :: h4 :: rest =>
    match hexVal h1, hexVal h2, hexVal h3, hexVal h4 with
    | some d1, some d2, some d3, some d4 =>
      let cp := d1 * 4096 + d2 * 256 + d3 * 16 + d4
      if 0xD800 ≤ cp && cp ≤ 0xDFFF then none
      else (parseStringRest rest).map (fun p => (cp :: p.1, p.2))
    | _, _, _, _ => none
  | 92 :: e :: rest =>
    match escVal e with
    | some c => (parseStringRest rest).map (fun p => (c :: p.1, p.2))
    | none => none
  | c :: rest =>
    if c < 32 then none
    else (parseStringRest rest).map (fun p => (c :: p.1, p.2))

/-- A parsed JSON scalar value (the subset needed by the request bodies:
strings, numbers, booleans, null; nested containers are not modelled). -/
inductive JsonVal where
  | jstr (s : List Nat)
  | jnum
  | jbool (b : Bool)
  | jnull
deriving DecidableEq

/-- Is this a character that may continue a JSON number? -/
def numChar (c : Nat) : Bool :=
  (48 ≤ c && c ≤ 57) || c == 43 || c == 45 || c == 46 || c == 101 || c == 69

/-- Modelled from the spec: parse one JSON scalar value. -/
def parseValue (l : List Nat) : Option (JsonVal × List Nat) :=
  match skipWs l with
  | 34 :: rest => (parseStringRest rest).map (fun p => (JsonVal.jstr p.1, p.2))
  | 116 :: 114 :: 117 :: 101 :: rest => some (JsonVal.jbool true, rest)
  | 102 :: 97 :: 108 :: 115 :: 101 :: rest => some (JsonVal.jbool false, rest)
  | 110 :: 117 :: 108 :: 108 :: rest => some (JsonVal.jnull, rest)
  | c :: rest =>
    if c = 45 || (48 ≤ c && c ≤ 57) then
      some (JsonVal.jnum, rest.dropWhile numChar)
    else none
  | [] => none

/-- Modelled from the spec: parse the members of a JSON object after the
opening brace, up to and including the closing brace.  The fuel argument
only serves structural recursion; callers pass the input length, which is
enough because every member consumes at least one character. -/
def parseMembers : Nat → List Nat → Option (List (List Nat × JsonVal) × List Nat)
  | 0, _ => none
  | fuel + 1, l =>
    match skipWs l with
    | 34 :: rest =>
      match parseStringRest rest with
      | none => none
      | some (key, r1) =>
        match skipWs r1 with
        | 58 :: r2 =>
          match parseValue r2 with
          | none => none
          | some (v, r3) =>
            match skipWs r3 with
            | 44 :: r4 =>
              (parseMembers fuel r4).map (fun p => ((key, v) :: p.1, p.2))
            | 125 :: r4 => some ([(key, v)], r4)
            | _ => none
        | _ => none
    | _ => none

/-- Modelled from the spec: parse a JSON object into its member list. -/
def parseObject (l : List Nat) : Option (List (List Nat × JsonVal) × List Nat) :=
  match skipWs l with
  | 123 :: rest =>
    match skipWs rest with
    | 125 :: r => some ([], r)
    | _ => parseMembers rest.length rest
  | _ => none

/-- The value of the unique member with the given key, required to be a
string (serde errors on a missing field, a duplicated field or a field of
the wrong type). -/
def getStrField (ms : List (List Nat × JsonVal)) (k : List Nat) : Option (List Nat) :=
  match ms.filter (fun m => m.1 = k) with
  | [(_, JsonVal.jstr s)] => some s
  | _ => none

/-- Translation of `CreateLabelRequest` (src/lib.rs:26-30): name and content as code-point
lists. -/
structure CreateLabelRequest where
  name : List Nat
  content : List Nat
deriving DecidableEq

/-- Translation of `UpdateLabelRequest` (src/lib.rs:32-35). -/
structure UpdateLabelRequest where
  content : List Nat
deriving DecidableEq

/-- Modelled from the spec: serde_json deserialization of
`CreateLabelRequest` from body bytes (UTF-8 decode, parse one object with
string fields `name` and `content`, nothing but whitespace after it). -/
def parseCreateLabelRequest (bytes : List Nat) : Option CreateLabelRequest :=
  match utf8Decode bytes with
  | none => none
  | some cps =>
    match parseObject cps with
    | none => none
    | some (ms, rest) =>
      if (skipWs rest).isEmpty then
        match getStrField ms (strCps "name"), getStrField ms (strCps "content") with
        | some n, some c => some ⟨n, c⟩
        | _, _ => none
      else none

/-- Modelled from the spec: serde_json deserialization of
`UpdateLabelRequest` from body bytes. -/
def parseUpdateLabelRequest (bytes : List Nat) : Option UpdateLabelRequest :=
  match utf8Decode bytes with
  | none => none
  | some cps =>
    match parseObject cps with
    | none => none
    | some (ms, rest) =>
      if (skipWs rest).isEmpty then
        match getStrField ms (strCps "content") with
        | some c => some ⟨c⟩
        | none => none
      else none

/-- Translation of `StoreViewerState` (src/lib.rs:20-24). -/
structure StoreViewerState where
  store_id : String
  server_id : Nat

/-- Modelled from the spec (section 4.2): the external store facade consumed
through the `theater::simple::store` bindings.  Each operation is a state
transformer over an abstract store state `σ` returning the `Result<_, String>`
of the binding; label names are code-point lists and content references are
opaque code-point lists. -/
structure StoreOps (σ : Type) where
  get_by_label : String → List Nat → σ → Except String (Option (List Nat)) × σ
  get : String → List Nat → σ → Except String (List Nat) × σ
  store_at_label : String → List Nat → List Nat → σ → Except String Unit × σ
  list_labels : String → σ → Except String (List (List Nat)) × σ

/-- Modelled from the spec: the static asset payloads embedded with
`include_str!` (asset files outside src/). -/
structure Assets where
  indexHtml : List Nat
  appCss : List Nat
  appJs : List Nat

/-- Direct translation of `serve_index_html` (src/lib.rs:87-94). -/
def serve_index_html (a : Assets) : HttpResponse :=
  ⟨200, [("Content-Type", "text/html")], some a.indexHtml⟩

/-- Direct translation of `serve_app_css` (src/lib.rs:96-103). -/
def serve_app_css (a : Assets) : HttpResponse :=
  ⟨200, [("Content-Type", "text/css")], some a.appCss⟩

/-- Direct translation of `serve_app_js` (src/lib.rs:105-114). -/
def serve_app_js (a : Assets) : HttpResponse :=
  ⟨200, [("Content-Type", "application/javascript")], some a.appJs⟩

/-- Direct translation of `handle_list_labels` (src/lib.rs:120-129). -/
def handle_list_labels {σ : Type} (ops : StoreOps σ) (state : StoreViewerState)
    (s : σ) : Except String HttpResponse × σ :=
  match ops.list_labels state.store_id s with
  | (.error e, s1) => (.error e, s1)
  | (.ok labels, s1) => (.ok (json_response 200 (serializeLabels labels)), s1)

/-- Direct translation of `handle_get_label` (src/lib.rs:131-165): resolve the
label, read the content, classify it, render it and serialize the
`LabelContentResponse`. -/
def handle_get_label {σ : Type} (ops : StoreOps σ) (state : StoreViewerState)
    (label_name : String) (s : σ) : Except String HttpResponse × σ :=
  match ops.get_by_label state.store_id (strCps label_name) s with
  | (.error e, s1) => (.error e, s1)
  | (.ok none, s1) => (.error ("Label not found: " ++ label_name), s1)
  | (.ok (some content_ref), s1) =>
    match ops.get state.store_id content_ref s1 with
    | (.error e, s2) => (.error e, s2)
    | (.ok content_bytes, s2) =>
      let is_text := is_text_content content_bytes
      let content_str := contentStr content_bytes
      (.ok (json_response 200
        (serializeLabelContent label_name content_str is_text
          content_bytes.length)), s2)

/-- Direct translation of `handle_create_label` (src/lib.rs:167-188).  The
serde error text is not modelled; the message is any string with the
`Invalid JSON: ` prefix. -/
def handle_create_label {σ : Type} (ops : StoreOps σ) (state : StoreViewerState)
    (req : HttpRequest) (s : σ) : Except String HttpResponse × σ :=
  match req.body with
  | none => (.error "Request body is required", s)
  | some body =>
    match parseCreateLabelRequest body with
    | none => (.error "Invalid JSON: invalid request body", s)
    | some create_req =>
      if create_req.name.isEmpty then
        (.ok (error_response 400 "Label name cannot be empty"), s)
      else
        match ops.store_at_label state.store_id create_req.name
            (utf8Encode create_req.content) s with
        | (.error e, s1) => (.error e, s1)
        | (.ok _, s1) =>
          (.ok (json_response 200 (strBytes "\x7b\"success\":true\x7d")), s1)

/-- Direct translation of `handle_update_label` (src/lib.rs:190-210). -/
def handle_update_label {σ : Type} (ops : StoreOps σ) (state : StoreViewerState)
    (label_name : String) (req : HttpRequest) (s : σ) :
    Except String HttpResponse × σ :=
  match req.body with
  | none => (.error "Request body is required", s)
  | some body =>
    match parseUpdateLabelRequest body with
    | none => (.error "Invalid JSON: invalid request body", s)
    | some update_req =>
      match ops.store_at_label state.store_id (strCps label_name)
          (utf8Encode update_req.content) s with
      | (.error e, s1) => (.error e, s1)
      | (.ok _, s1) =>
        (.ok (json_response 200 (strBytes "\x7b\"success\":true\x7d")), s1)

/-- The path part of a request URI: everything before the first `?`, as in
`req.uri.split('?').next().unwrap_or("/")` (src/lib.rs:285; the `unwrap_or`
branch is dead because `split` always yields a first piece). -/
def pathChars (uri : String) : List Char := uri.data.takeWhile (fun c => !(c == '?'))

/-- Direct translation of `handle_request` (src/lib.rs:273-349): deserialize
the actor state, strip the query string, route on method and path, wrap
handler errors into `error_response`s (500, except 404 on the single-label
GET path), and return the state bytes unchanged alongside the response.
The state deserializer (serde_json) is a parameter `deser`. -/
def handle_request {σ : Type} (ops : StoreOps σ)
    (deser : List Nat → Except String StoreViewerState) (assets : Assets)
    (state : Option (List Nat)) (req : HttpRequest) (s : σ) :
    Except String (Option (List Nat) × HttpResponse) × σ :=
  match state with
  | none => (.error "State not found", s)
  | some state_bytes =>
    match deser state_bytes with
    | .error e => (.error ("Failed to deserialize state: " ++ e), s)
    | .ok viewer_state =>
      let path := pathChars req.uri
      let method := req.method
      if method = "GET" ∧ path = "/".data then
        (.ok (some state_bytes, serve_index_html assets), s)
      else if method = "GET" ∧ path = "/app.css".data then
        (.ok (some state_bytes, serve_app_css assets), s)
      else if method = "GET" ∧ path = "/app.js".data then
        (.ok (some state_bytes, serve_app_js assets), s)
      else if method = "GET" ∧ path = "/api/labels".data then
        match handle_list_labels ops viewer_state s with
        | (.ok resp, s1) => (.ok (some state_bytes, resp), s1)
        | (.error e, s1) => (.ok (some state_bytes, error_response 500 e), s1)
      else if method = "POST" ∧ path = "/api/labels".data then
        match handle_create_label ops viewer_state req s with
        | (.ok resp, s1) => (.ok (some state_bytes, resp), s1)
        | (.error e, s1) => (.ok (some state_bytes, error_response 500 e), s1)
      else if method = "GET" ∧ "/api/labels/".data.isPrefixOf path = true then
        match handle_get_label ops viewer_state (String.mk (path.drop 12)) s with
        | (.ok resp, s1) => (.ok (some state_bytes, resp), s1)
        | (.error e, s1) => (.ok (some state_bytes, error_response 404 e), s1)
      else if method = "PUT" ∧ "/api/labels/".data.isPrefixOf path = true then
        match handle_update_label ops viewer_state (String.mk (path.drop 12)) req s with
        | (.ok resp, s1) => (.ok (some state_bytes, resp), s1)
        | (.error e, s1) => (.ok (some state_bytes, error_response 500 e), s1)
      else
        (.ok (some state_bytes,
          ⟨404, [("Content-Type", "text/plain")], some (strBytes "Not Found")⟩), s)

/-- Associative lookup of a label in the in-memory store model. -/
def lookupLabel : List (List Nat × List Nat) → List Nat → Option (List Nat)
  | [], _ => none
  | (k, v) :: rest, name => if k = name then some v else lookupLabel rest name

/-- Create-or-overwrite of a label in the in-memory store model. -/
def upsertLabel : List (List Nat × List Nat) → List Nat → List Nat →
    List (List Nat × List Nat)
  | [], name, v => [(name, v)]
  | (k, w) :: rest, name, v =>
    if k = name then (k, v) :: rest else (k, w) :: upsertLabel rest name v

/-- Modelled from the spec (section 4.2): a faithful in-memory instantiation
of the store facade, for the claims that assume the store returns exactly the
written bytes.  The state is a label-to-bytes map; a content reference is the
label name itself; writes create or overwrite; reads never fail for resolved
references. -/
def mapOps : StoreOps (List (List Nat × List Nat)) :=
  ⟨fun _sid name s => (.ok ((lookupLabel s name).map (fun _ => name)), s),
   fun _sid content_ref s =>
     match lookupLabel s content_ref with
     | some bytes => (.ok bytes, s)
     | none => (.error "Content not found", s),
   fun _sid name bytes s => (.ok (), upsertLabel s name bytes),
   fun _sid s => (.ok (s.map (fun kv => kv.1)), s)⟩

/-- A trivial store over `Unit` state whose resolve always answers
`none`, used to instantiate witnesses. -/
def unitOps : StoreOps Unit :=
  ⟨fun _ _ s => (.ok none, s),
   fun _ _ s => (.error "Content not found", s),
   fun _ _ _ s => (.ok (), s),
   fun _ s => (.ok [], s)⟩

/-- A fixed state deserializer for witnesses. -/
def wDeser : List Nat → Except String StoreViewerState :=
  fun _ => .ok ⟨"store-viewer", 1⟩

/-- Empty static assets for witnesses. -/
def wAssets : Assets := ⟨[], [], []⟩

/-- The POST body `{"name":"foo","content":"hello"}`. -/
def c2PostBody : List Nat := strBytes "\x7b\"name\":\"foo\",\"content\":\"hello\"\x7d"

/-- The store contents after the POST: `foo` maps to the bytes of `hello`. -/
def c2Store : List (List Nat × List Nat) := [(strCps "foo", strBytes "hello")]

/-- The body the service actually returns for `GET /api/labels/foo`:
`hello` is 5 bytes, the text threshold `5 / 10` floors to 0, so the content
is classified binary and rendered as base64. -/
def c2ActualBody : List Nat :=
  strBytes "\x7b\"name\":\"foo\",\"content\":\"aGVsbG8=\",\"is_text\":false,\"size_bytes\":5\x7d"

/-- The body the claim expects. -/
def c2ClaimBody : List Nat :=
  strBytes "\x7b\"name\":\"foo\",\"content\":\"hello\",\"is_text\":true,\"size_bytes\":5\x7d"

/-- C2 counterexample: with the faithful in-memory store, POSTing
`{"name":"foo","content":"hello"}` succeeds, but the subsequent
`GET /api/labels/foo` answers 200 with `is_text:false` and base64 content
`aGVsbG8=`, not the claimed `is_text:true` with verbatim `hello`. -/
theorem c2_counterexample :
    handle_request mapOps wDeser wAssets (some [])
        ⟨"POST", "/api/labels", some c2PostBody⟩ [] =
      (.ok (some [], json_response 200 (strBytes "\x7b\"success\":true\x7d")), c2Store) ∧
    handle_request mapOps wDeser wAssets (some [])
        ⟨"GET", "/api/labels/foo", none⟩ c2Store =
      (.ok (some [], json_response 200 c2ActualBody), c2Store) ∧
    c2ActualBody ≠ c2ClaimBody :=
  ⟨rfl, rfl, by decide⟩

/-- C2 (amended): after `POST /api/labels` with body
`{"name":"foo","content":"hello"}` succeeds, `GET /api/labels/foo` returns
status 200 with body
`{"name":"foo","content":"aGVsbG8=","is_text":false,"size_bytes":5}`
(the store faithfully returning the written bytes, for any actor state whose
deserialization succeeds). -/
theorem c2_amended (deser : List Nat → Except String StoreViewerState)
    (assets : Assets) (sb : List Nat) (vs : StoreViewerState)
    (hdeser : deser sb = .ok vs) :
    handle_request mapOps deser assets (some sb)
        ⟨"POST", "/api/labels", some c2PostBody⟩ [] =
      (.ok (some sb, json_response 200 (strBytes "\x7b\"success\":true\x7d")), c2Store) ∧
    handle_request mapOps deser assets (some sb)
        ⟨"GET", "/api/labels/foo", none⟩ c2Store =
      (.ok (some sb, json_response 200 c2ActualBody), c2Store) := by
  constructor
  · unfold handle_request
    simp only []
    rw [hdeser]
    rfl
  · unfold handle_request
    simp only []
    rw [hdeser]
    rfl

theorem c2_amended_witness :
    wDeser [] = .ok ⟨"store-viewer", 1⟩ ∧
    (handle_request mapOps wDeser wAssets (some [])
        ⟨"POST", "/api/labels", some c2PostBody⟩ [] =
      (.ok (some [], json_response 200 (strBytes "\x7b\"success\":true\x7d")), c2Store) ∧
    handle_request mapOps wDeser wAssets (some [])
        ⟨"GET", "/api/labels/foo", none⟩ c2Store =
      (.ok (some [], json_response 200 c2ActualBody), c2Store)) :=
  ⟨rfl, c2_amended wDeser wAssets [] ⟨"store-viewer", 1⟩ rfl⟩

/-- C6 counterexample: `POST /api/labels` with a missing body — a validation
error in the claim's taxonomy — is answered with status 500, not 400. -/
theorem c6_counterexample :
    handle_request unitOps wDeser wAssets (some [])
        ⟨"POST", "/api/labels", none⟩ () =
      (.ok (some [], error_response 500 "Request body is required"), ()) ∧
    (error_response 500 "Request body is required").status = 500 ∧
    (error_response 500 "Request body is required").status ≠ 400 :=
  ⟨rfl, rfl, by decide⟩

/-- C6 (amended): on `POST /api/labels` an empty label name is mapped to
status 400, while a missing request body and an invalid JSON body are mapped
to status 500 (the handler returns them as errors and the router wraps
errors on this path in a 500 response). -/
theorem c6_amended {σ : Type} (ops : StoreOps σ)
    (deser : List Nat → Except String StoreViewerState) (assets : Assets)
    (sb : List Nat) (req : HttpRequest) (s : σ) (vs : StoreViewerState)
    (hdeser : deser sb = .ok vs) (hm : req.method = "POST")
    (hpath : pathChars req.uri = "/api/labels".data) :
    (req.body = none →
      handle_request ops deser assets (some sb) req s =
        (.ok (some sb, error_response 500 "Request body is required"), s))
    ∧ (∀ body, req.body = some body → parseCreateLabelRequest body = none →
      handle_request ops deser assets (some sb) req s =
        (.ok (some sb, error_response 500 "Invalid JSON: invalid request body"), s))
    ∧ (∀ body cr, req.body = some body → parseCreateLabelRequest body = some cr →
        cr.name = [] →
      handle_request ops deser assets (some sb) req s =
        (.ok (some sb, error_response 400 "Label name cannot be empty"), s)) := by
  have hbranch : handle_request ops deser assets (some sb) req s =
      (match handle_create_label ops vs req s with
       | (.ok resp, s1) => (.ok (some sb, resp), s1)
       | (.error e, s1) => (.ok (some sb, error_response 500 e), s1)) := by
    unfold handle_request
    simp only []
    rw [hdeser]
    simp only []
    rw [hm, hpath]
    rw [if_neg (fun h => by exact absurd h.1 (by decide)),
        if_neg (fun h => by exact absurd h.1 (by decide)),
        if_neg (fun h => by exact absurd h.1 (by decide)),
        if_neg (fun h => by exact absurd h.1 (by decide)),
        if_pos ⟨rfl, rfl⟩]
  refine ⟨?_, ?_, ?_⟩
  · intro hb
    rw [hbranch]
    unfold handle_create_label
    rw [hb]
  · intro body hb hparse
    rw [hbranch]
    unfold handle_create_label
    rw [hb]
    simp only []
    rw [hparse]
  · intro body cr hb hparse hname
    rw [hbranch]
    unfold handle_create_label
    rw [hb]
    simp only []
    rw [hparse]
    simp only [hname]
    rfl

theorem c6_amended_witness :
    (wDeser [] = .ok ⟨"store-viewer", 1⟩ ∧
     (⟨"POST", "/api/labels", none⟩ : HttpRequest).method = "POST" ∧
     pathChars (⟨"POST", "/api/labels", none⟩ : HttpRequest).uri = "/api/labels".data) ∧
    (((⟨"POST", "/api/labels", none⟩ : HttpRequest).body = none →
      handle_request unitOps wDeser wAssets (some [])
          ⟨"POST", "/api/labels", none⟩ () =
        (.ok (some [], error_response 500 "Request body is required"), ()))
    ∧ (∀ body, (⟨"POST", "/api/labels", none⟩ : HttpRequest).body = some body →
        parseCreateLabelRequest body = none →
      handle_request unitOps wDeser wAssets (some [])
          ⟨"POST", "/api/labels", none⟩ () =
        (.ok (some [], error_response 500 "Invalid JSON: invalid request body"), ()))
    ∧ (∀ body cr, (⟨"POST", "/api/labels", none⟩ : HttpRequest).body = some body →
        parseCreateLabelRequest body = some cr → cr.name = [] →
      handle_request unitOps wDeser wAssets (some [])
          ⟨"POST", "/api/labels", none⟩ () =
        (.ok (some [], error_response 400 "Label name cannot be empty"), ()))) :=
  ⟨⟨rfl, rfl, rfl⟩,
    c6_amended unitOps wDeser wAssets [] ⟨"POST", "/api/labels", none⟩ ()
      ⟨"store-viewer", 1⟩ rfl rfl rfl⟩

/-- The POST body `{"name":"","content":"x"}`. -/
def c7Body : List Nat := strBytes "\x7b\"name\":\"\",\"content\":\"x\"\x7d"

/-- C7: `POST /api/labels` with `{"name":"","content":"x"}` returns status
400 with body `{"error":"Label name cannot be empty"}`, and the store state
is returned unchanged without any store call (the result holds for every
store implementation `ops` and every store state `s`). -/
theorem c7_empty_name {σ : Type} (ops : StoreOps σ)
    (deser : List Nat → Except String StoreViewerState) (assets : Assets)
    (sb : List Nat) (vs : StoreViewerState) (s : σ)
    (hdeser : deser sb = .ok vs) :
    handle_request ops deser assets (some sb)
        ⟨"POST", "/api/labels", some c7Body⟩ s =
      (.ok (some sb, error_response 400 "Label name cannot be empty"), s) := by
  unfold handle_request
  simp only []
  rw [hdeser]
  rfl

theorem c7_empty_name_witness :
    wDeser [] = .ok ⟨"store-viewer", 1⟩ ∧
    handle_request unitOps wDeser wAssets (some [])
        ⟨"POST", "/api/labels", some c7Body⟩ () =
      (.ok (some [], error_response 400 "Label name cannot be empty"), ()) :=
  ⟨rfl, c7_empty_name unitOps wDeser wAssets [] ⟨"store-viewer", 1⟩ () rfl⟩

theorem append_data_length_ne (nd l1 l2 : List Char)
    (h1 : l1.length = 12) (h2 : l2.length < 12) : ¬(l1 ++ nd = l2) := by
  intro h
  have hl := congrArg List.length h
  rw [List.length_append, h1] at hl
  omega

theorem isPrefixOf_append (l1 l2 : List Char) : l1.isPrefixOf (l1 ++ l2) = true := by
  induction l1 with
  | nil => simp [List.isPrefixOf]
  | cons a t ih =>
    show (a == a && List.isPrefixOf t (t ++ l2)) = true
    simp [ih]

/-- C5: on `GET /api/labels/{name}`, a resolve that answers `none` yields
status 404 with body `{"error":"Label not found: <name>"}`, and every failure
of `handle_get_label` on this path — store errors from resolve or read
included — is mapped to status 404 with the error message in the body. -/
theorem c5_get_label_error_handling {σ : Type} (ops : StoreOps σ)
    (deser : List Nat → Except String StoreViewerState) (assets : Assets)
    (sb : List Nat) (req : HttpRequest) (s : σ) (vs : StoreViewerState)
    (name : String) (hdeser : deser sb = .ok vs) (hm : req.method = "GET")
    (hpath : pathChars req.uri = "/api/labels/".data ++ name.data) :
    (∀ s1, ops.get_by_label vs.store_id (strCps name) s = (.ok none, s1) →
      handle_request ops deser assets (some sb) req s =
        (.ok (some sb, error_response 404 ("Label not found: " ++ name)), s1))
    ∧ (∀ e s1, handle_get_label ops vs name s = (.error e, s1) →
      handle_request ops deser assets (some sb) req s =
        (.ok (some sb, error_response 404 e), s1)) := by
  have hdrop : ("/api/labels/".data ++ name.data).drop 12 = name.data := by
    rw [show (12 : Nat) = ("/api/labels/".data).length from rfl, List.drop_left]
  have hbranch : handle_request ops deser assets (some sb) req s =
      (match handle_get_label ops vs name s with
       | (.ok resp, s1) => (.ok (some sb, resp), s1)
       | (.error e, s1) => (.ok (some sb, error_response 404 e), s1)) := by
    unfold handle_request
    simp only []
    rw [hdeser]
    simp only []
    rw [hm, hpath]
    rw [if_neg (fun h => append_data_length_ne name.data
          "/api/labels/".data "/".data rfl (by decide) h.2),
        if_neg (fun h => append_data_length_ne name.data
          "/api/labels/".data "/app.css".data rfl (by decide) h.2),
        if_neg (fun h => append_data_length_ne name.data
          "/api/labels/".data "/app.js".data rfl (by decide) h.2),
        if_neg (fun h => append_data_length_ne name.data
          "/api/labels/".data "/api/labels".data rfl (by decide) h.2),
        if_neg (fun h => absurd h.1 (by decide)),
        if_pos ⟨rfl, isPrefixOf_append "/api/labels/".data name.data⟩]
    rw [hdrop]
  constructor
  · intro s1 hresolve
    have hgl : handle_get_label ops vs name s =
        (.error ("Label not found: " ++ name), s1) := by
      unfold handle_get_label
      rw [hresolve]
    rw [hbranch, hgl]
  · intro e s1 hfail
    rw [hbranch, hfail]

theorem c5_get_label_error_handling_witness :
    (wDeser [] = .ok ⟨"store-viewer", 1⟩ ∧
     (⟨"GET", "/api/labels/foo", none⟩ : HttpRequest).method = "GET" ∧
     pathChars (⟨"GET", "/api/labels/foo", none⟩ : HttpRequest).uri =
       "/api/labels/".data ++ "foo".data) ∧
    ((∀ s1, unitOps.get_by_label (⟨"store-viewer", 1⟩ : StoreViewerState).store_id
        (strCps "foo") () = (.ok none, s1) →
      handle_request unitOps wDeser wAssets (some [])
          ⟨"GET", "/api/labels/foo", none⟩ () =
        (.ok (some [], error_response 404 ("Label not found: " ++ "foo")), s1))
    ∧ (∀ e s1, handle_get_label unitOps ⟨"store-viewer", 1⟩ "foo" () = (.error e, s1) →
      handle_request unitOps wDeser wAssets (some [])
          ⟨"GET", "/api/labels/foo", none⟩ () =
        (.ok (some [], error_response 404 e), s1))) :=
  ⟨⟨rfl, rfl, rfl⟩,
    c5_get_label_error_handling unitOps wDeser wAssets []
      ⟨"GET", "/api/labels/foo", none⟩ () ⟨"store-viewer", 1⟩ "foo" rfl rfl rfl⟩

/-- C8: whenever `handle_request` succeeds, the serialized actor state it
returns is exactly the one passed in, for every store implementation, method,
path and body, whether the routed handler succeeded or failed. -/
theorem c8_state_passthrough {σ : Type} (ops : StoreOps σ)
    (deser : List Nat → Except String StoreViewerState) (assets : Assets)
    (state : Option (List Nat)) (req : HttpRequest) (s : σ)
    (out : Option (List Nat) × HttpResponse) (s' : σ)
    (h : handle_request ops deser assets state req s = (.ok out, s')) :
    out.1 = state := by
  cases state with
  | none =>
    unfold handle_request at h
    exact absurd (congrArg Prod.fst h) (by simp)
  | some sb =>
    unfold handle_request at h
    simp only [] at h
    cases hd : deser sb with
    | error e =>
      rw [hd] at h
      exact absurd (congrArg Prod.fst h) (by simp)
    | ok vs =>
      rw [hd] at h
      simp only [] at h
      repeat' split at h
      all_goals
        have h2 := congrArg Prod.fst h
        injection h2 with h3
        rw [← h3]

theorem c8_state_passthrough_witness :
    handle_request unitOps wDeser wAssets (some []) ⟨"GET", "/", none⟩ () =
      (.ok ((some [], serve_index_html wAssets)), ()) ∧
    ((some [], serve_index_html wAssets) : Option (List Nat) × HttpResponse).1 =
      some [] :=
  ⟨rfl, c8_state_passthrough unitOps wDeser wAssets (some []) ⟨"GET", "/", none⟩ ()
    (some [], serve_index_html wAssets) () rfl⟩

theorem takeWhile_idem {α : Type} (p : α → Bool) (l : List α) :
    (l.takeWhile p).takeWhile p = l.takeWhile p := by
  induction l with
  | nil => rfl
  | cons a t ih =>
    cases hp : p a with
    | true => simp [List.takeWhile_cons, hp, ih]
    | false => simp [List.takeWhile_cons, hp]

theorem handle_create_label_body {σ : Type} (ops : StoreOps σ)
    (vs : StoreViewerState) (r1 r2 : HttpRequest) (h : r1.body = r2.body)
    (s : σ) : handle_create_label ops vs r1 s = handle_create_label ops vs r2 s := by
  unfold handle_create_label
  rw [h]

theorem handle_update_label_body {σ : Type} (ops : StoreOps σ)
    (vs : StoreViewerState) (ln : String) (r1 r2 : HttpRequest)
    (h : r1.body = r2.body) (s : σ) :
    handle_update_label ops vs ln r1 s = handle_update_label ops vs ln r2 s := by
  unfold handle_update_label
  rw [h]

/-- C9: routing never consults the query string — the result of
`handle_request` for any request equals the result for the same request with
the URI truncated at its first `?` (the truncation being exactly
`pathChars`). -/
theorem c9_query_string_ignored {σ : Type} (ops : StoreOps σ)
    (deser : List Nat → Except String StoreViewerState) (assets : Assets)
    (state : Option (List Nat)) (req : HttpRequest) (s : σ) :
    handle_request ops deser assets state
        ⟨req.method, String.mk (pathChars req.uri), req.body⟩ s =
      handle_request ops deser assets state req s := by
  cases state with
  | none => rfl
  | some sb =>
    unfold handle_request
    simp only []
    cases deser sb with
    | error e => rfl
    | ok vs =>
      simp only []
      have hp : pathChars (String.mk (pathChars req.uri)) = pathChars req.uri :=
        takeWhile_idem _ _
      rw [hp,
          handle_create_label_body ops vs
            ⟨req.method, String.mk (pathChars req.uri), req.body⟩ req rfl s,
          handle_update_label_body ops vs
            (String.mk ((pathChars req.uri).drop 12))
            ⟨req.method, String.mk (pathChars req.uri), req.body⟩ req rfl s]
